import Mathlib

/-!
Verification of the tosch-hl7 HL7 message library.

The development shallowly embeds the TypeScript classes of the repository
(`Segment`, `HL7Field`, `HL7Component`, `HL7Message`, `CustomValidator`) as
Lean definitions and proves or refutes the specification claims about them.

Modelling conventions:
* JavaScript strings are Lean `String`s; `String.split(sep)` for a one-character
  separator is `jsSplit`, `Array.join(sep)` is `jsJoin`, both implemented on
  `List Char` so that inverse lemmas can be proved by structural induction.
* `rawHL7.split(/\r?\n/)` is `splitLines`: the regex consumes an optional CR
  followed by a mandatory LF, so a lone CR is NOT a separator.
* Proxy traps with integer-like keys become explicit `idxGet`/`idxSet`
  operations.  A proxy `get` that builds a `new HL7Field(...)` is modelled by
  constructing a fresh value — exactly like the source, the result carries no
  reference back to the owning segment.
* A thrown TypeError (property access on `null`/`undefined`) is modelled by
  returning `none`; state mutated before the throw is not observed by any claim.
* In-place mutation of a `Segment` object aliased by both `this.segments` and
  `this.parsedSegments` is modelled by replacing, in each container, the entry
  that holds that object; in every state reachable by the modelled operations
  the aliased object is the first segment carrying its (denormalised,
  never-updated) name, so replacement is keyed by that name.
* JavaScript object property lookup on `parsedSegments` is an association-list
  lookup; segment names produced by the path grammar (`[A-Z]{2,3}[0-9]?`) never
  collide with `Object.prototype` property names, so the prototype chain is
  irrelevant to every claim.
* The two host predicates used by the validator (`isNaN(Date.parse(v))` and
  `isNaN(Number(v))`) are parameters of the embedding; no claim depends on
  their values.
-/

namespace HL7

/-! ## Character-level string utilities (JS `String.split` / `Array.join`) -/

/-- Prepend a character to the first chunk of a chunk list (used by the
splitters to build results without an accumulator). -/
def consHead (c : Char) : List (List Char) → List (List Char)
  | [] => [[c]]
  | h :: t => (c :: h) :: t

/-- JS `str.split(sep)` for a single-character separator, on char lists.
Consecutive separators and leading/trailing separators yield empty chunks,
exactly as in JavaScript; the result is always non-empty. -/
def splitOnChar (sep : Char) : List Char → List (List Char)
  | [] => [[]]
  | c :: rest =>
    if c = sep then [] :: splitOnChar sep rest
    else consHead c (splitOnChar sep rest)

/-- JS `arr.join(sep)` where `sep` is given as a character sequence. -/
def joinWithSep (sep : List Char) : List (List Char) → List Char
  | [] => []
  | [x] => x
  | x :: y :: xs => x ++ sep ++ joinWithSep sep (y :: xs)

/-- JS `raw.split(/\r?\n/)` on char lists: a separator is an optional `\r`
followed by a mandatory `\n`.  A lone `\r` is an ordinary character. -/
def splitLinesChars : List Char → List (List Char)
  | [] => [[]]
  | '\n' :: rest => [] :: splitLinesChars rest
  | '\r' :: '\n' :: rest => [] :: splitLinesChars rest
  | c :: rest => consHead c (splitLinesChars rest)

/-- JS `str.split(sep)` on `String`s. -/
def jsSplit (sep : Char) (s : String) : List String :=
  (splitOnChar sep s.data).map String.mk

/-- JS `arr.join(sep)` on `String`s, one-character separator. -/
def jsJoin (sep : Char) (xs : List String) : String :=
  String.mk (joinWithSep [sep] (xs.map String.data))

/-- JS `raw.split(/\r?\n/)` on `String`s. -/
def splitLines (s : String) : List String :=
  (splitLinesChars s.data).map String.mk

/-- JS `arr.join('\r\n')`. -/
def joinCRLF (xs : List String) : String :=
  String.mk (joinWithSep ['\r', '\n'] (xs.map String.data))

/-- JS `while (arr.length < n) arr.push('')`: pad a string list with empty
strings up to length `n`. -/
def padTo (l : List String) (n : Nat) : List String :=
  l ++ List.replicate (n - l.length) ""

/-- ASCII whitespace stripped by JS `String.prototype.trim` (the Unicode
additions are irrelevant to the wire format). -/
def isWS (c : Char) : Bool :=
  c = ' ' || c = '\t' || c = '\n' || c = '\r' || c = '\x0b' || c = '\x0c'

/-- JS `str.trim()`: strip leading and trailing whitespace. -/
def jsTrim (s : String) : String :=
  String.mk (((s.data.dropWhile isWS).reverse.dropWhile isWS).reverse)

/-! ## Path resolver (`HL7Message.parsePath`)

Grammar: `^([A-Z]{2,3}[0-9]?)-(\d+)(?:\.(\d+))?(?:\.(\d+))?$`. -/

/-- Structured locator produced by `parsePath`.  `componentIndex` and
`subcomponentIndex` are `none` exactly when the optional regex groups are
absent (the JS code only assigns them `if (match[3])` / `if (match[4])`,
and a matched group `\d+` is never the empty string). -/
structure PathParts where
  segmentName : String
  fieldIndex : Nat
  componentIndex : Option Nat
  subcomponentIndex : Option Nat
deriving DecidableEq, Repr

/-- Leading segment-name part of the path regex: two or three uppercase
letters, optionally followed by one digit, then a literal `-`.  Returns the
name's characters and the rest of the input after the dash.  The regex
alternatives are mutually exclusive, so this direct case analysis matches
the backtracking regex exactly. -/
def parseSegNameChars : List Char → Option (List Char × List Char)
  | c1 :: c2 :: rest =>
    if c1.isUpper && c2.isUpper then
      match rest with
      | '-' :: r => some ([c1, c2], r)
      | c3 :: '-' :: r =>
        if c3.isUpper || c3.isDigit then some ([c1, c2, c3], r) else none
      | c3 :: c4 :: '-' :: r =>
        if c3.isUpper && c4.isDigit then some ([c1, c2, c3, c4], r) else none
      | _ => none
    else none
  | _ => none

/-- JS `parseInt` on a non-empty digit run. -/
def digitsToNat (ds : List Char) : Nat :=
  ds.foldl (fun a c => a * 10 + (c.toNat - 48)) 0

/-- `HL7Message.parsePath`: match the path grammar, returning `none` (the JS
code returns `null`) when the string does not match. `\d+` groups are matched
maximal-munch, which is equivalent to the greedy anchored regex. -/
def parsePath (path : String) : Option PathParts :=
  match parseSegNameChars path.data with
  | none => none
  | some (name, rest1) =>
    let d1 := rest1.takeWhile Char.isDigit
    let rest2 := rest1.dropWhile Char.isDigit
    if d1 = [] then none
    else
      match rest2 with
      | [] => some ⟨String.mk name, digitsToNat d1, none, none⟩
      | '.' :: rest3 =>
        let d2 := rest3.takeWhile Char.isDigit
        let rest4 := rest3.dropWhile Char.isDigit
        if d2 = [] then none
        else
          match rest4 with
          | [] => some ⟨String.mk name, digitsToNat d1, some (digitsToNat d2), none⟩
          | '.' :: rest5 =>
            let d3 := rest5.takeWhile Char.isDigit
            let rest6 := rest5.dropWhile Char.isDigit
            if d3 = [] then none
            else
              match rest6 with
              | [] => some ⟨String.mk name, digitsToNat d1,
                            some (digitsToNat d2), some (digitsToNat d3)⟩
              | _ => none
          | _ => none
      | _ => none

/-! ## `HL7Component` and `HL7Field` (src/core/Segment.ts) -/

/-- `class HL7Component`: a raw string plus its `&`-separated subcomponents. -/
structure HL7Component where
  value : String
  subcomponents : List String
deriving DecidableEq

/-- `new HL7Component(value)`: `this.subcomponents = value.split('&')`. -/
def HL7Component.mk' (value : String) : HL7Component :=
  ⟨value, jsSplit '&' value⟩

/-- `class HL7Field`: a raw string plus its `^`-separated components. -/
structure HL7Field where
  value : String
  components : List String
deriving DecidableEq

/-- `new HL7Field(value)`: `this.components = value.split('^')`. -/
def HL7Field.mk' (value : String) : HL7Field :=
  ⟨value, jsSplit '^' value⟩

/-- `HL7Field` proxy `get` trap for an integer-like key: 1-based lookup in
`components`; `undefined` (index out of range, including index 0, which reads
`components[-1]`) yields `null`, otherwise a fresh `HL7Component` is built from
the stored string.  An empty-but-present component therefore yields a view,
unlike the `Segment` trap below. -/
def HL7Field.idxGet (f : HL7Field) (index : Nat) : Option HL7Component :=
  if index = 0 then none
  else
    match f.components.get? (index - 1) with
    | none => none
    | some c => some (HL7Component.mk' c)

/-- `HL7Field` proxy `set` trap: pad `components` with empty strings while
`length < index`, assign `components[index-1]`, rejoin into `this.value`.
For index 0 the JS assignment `components[-1] = v` creates a stray property
the array join ignores, so the component list is unchanged. -/
def HL7Field.idxSet (f : HL7Field) (index : Nat) (v : String) : HL7Field :=
  if index = 0 then
    ⟨jsJoin '^' f.components, f.components⟩
  else
    let cs := (padTo f.components index).set (index - 1) v
    ⟨jsJoin '^' cs, cs⟩

/-- `HL7Field.getComponent(index)`: 1-based, `components[index-1] || ''`. -/
def HL7Field.getComponent (f : HL7Field) (index : Nat) : String :=
  if index = 0 then "" else f.components.getD (index - 1) ""

/-- `HL7Component` proxy `set` trap, same shape as `HL7Field.idxSet` with the
`&` separator. -/
def HL7Component.idxSet (c : HL7Component) (index : Nat) (v : String) : HL7Component :=
  if index = 0 then
    ⟨jsJoin '&' c.subcomponents, c.subcomponents⟩
  else
    let ss := (padTo c.subcomponents index).set (index - 1) v
    ⟨jsJoin '&' ss, ss⟩

/-! ## `Segment` (src/core/Segment.ts) -/

/-- `class Segment`: the `|`-separated raw fields (position 0 is the segment
name) plus the denormalised `name`, assigned once at construction and never
updated afterwards. -/
structure Segment where
  fields : List String
  name : String
deriving DecidableEq

/-- `new Segment(line)`: `this.fields = line.split('|'); this.name =
this.fields[0] || ''`. -/
def Segment.mk' (line : String) : Segment :=
  let fs := jsSplit '|' line
  ⟨fs, fs.headD ""⟩

/-- `Segment.getName()`. -/
def Segment.getName (s : Segment) : String := s.name

/-- `Segment.getFields()`. -/
def Segment.getFields (s : Segment) : List String := s.fields

/-- `Segment.getField(index)`: `this.fields[index] || ''` — a missing slot and
an empty slot are both the empty string. -/
def Segment.getField (s : Segment) (index : Nat) : String :=
  s.fields.getD index ""

/-- `Segment` proxy `get` trap for an integer-like key:
`if (!fieldValue) return null; return new HL7Field(fieldValue)` — an empty or
missing field yields `null` (the absent marker); otherwise a FRESH `HL7Field`
is built from the raw string, holding no reference to the segment. -/
def Segment.idxGet (s : Segment) (index : Nat) : Option HL7Field :=
  let fieldValue := s.getField index
  if fieldValue = "" then none else some (HL7Field.mk' fieldValue)

/-- `Segment` proxy `set` trap: `while (fields.length <= index) push('')`,
then `fields[index] = value`.  The denormalised `name` is not refreshed. -/
def Segment.idxSet (s : Segment) (index : Nat) (value : String) : Segment :=
  ⟨(padTo s.fields (index + 1)).set index value, s.name⟩

/-- `Segment.getFieldObject(index)`: wraps `getField` in a fresh `HL7Field`. -/
def Segment.getFieldObject (s : Segment) (index : Nat) : HL7Field :=
  HL7Field.mk' (s.getField index)

/-- `Segment.getComponent(fieldIndex, componentIndex)`: empty string when the
field is absent/empty, else 1-based lookup in the `^`-split of the field
(`components[componentIndex - 1] || ''`; index 0 reads `components[-1]`,
which is `undefined`). -/
def Segment.getComponent (s : Segment) (fieldIndex componentIndex : Nat) : String :=
  let field := s.getField fieldIndex
  if field = "" then ""
  else
    let components := jsSplit '^' field
    if componentIndex = 0 then "" else components.getD (componentIndex - 1) ""

/-- `Segment.getSubcomponent(fieldIndex, componentIndex, subcomponentIndex)`. -/
def Segment.getSubcomponent (s : Segment) (fieldIndex componentIndex subcomponentIndex : Nat) : String :=
  let component := s.getComponent fieldIndex componentIndex
  if component = "" then ""
  else
    let subcomponents := jsSplit '&' component
    if subcomponentIndex = 0 then "" else subcomponents.getD (subcomponentIndex - 1) ""

/-- `Segment.toString()`: `this.fields.join('|')`. -/
def Segment.toString (s : Segment) : String :=
  jsJoin '|' s.fields

/-! ## `HL7Message` (src/core/HL7Message.ts)

The source file carries two versions of the class.  They differ only in
`set`: the first registers a newly created segment in `parsedSegments` only,
the second also pushes it onto `this.segments`.  Everything else is shared
and embedded once. -/

/-- A value of the `parsedSegments` map: the JS code stores a lone `Segment`
for a name seen once and an array for a name seen more than once. -/
inductive SegmentData where
  | one : Segment → SegmentData
  | many : List Segment → SegmentData
deriving DecidableEq

/-- `class HL7Message`: the ordered segment list and the name-indexed
`parsedSegments` object (an insertion-ordered association list with unique
keys). -/
structure HL7Message where
  segments : List Segment
  parsedSegments : List (String × SegmentData)
deriving DecidableEq

/-- Append a segment to its name's group, creating the group at the end on
first sight (JS object property creation order). -/
def insertGroup : List (String × List Segment) → String → Segment → List (String × List Segment)
  | [], name, seg => [(name, [seg])]
  | (k, v) :: rest, name, seg =>
    if k = name then (k, v ++ [seg]) :: rest
    else (k, v) :: insertGroup rest name seg

/-- Group segments by `getName()` in first-seen key order, each group in
parse order (the first loop of `parseSegmentsToObject`). -/
def groupSegments (segments : List Segment) : List (String × List Segment) :=
  segments.foldl (fun acc s => insertGroup acc s.name s) []

/-- `HL7Message.parseSegmentsToObject`: group, then collapse one-element
groups to the lone segment (groups are never empty). -/
def parseSegmentsToObject (segments : List Segment) : List (String × SegmentData) :=
  (groupSegments segments).map fun kv =>
    match kv.2 with
    | [s] => (kv.1, SegmentData.one s)
    | l => (kv.1, SegmentData.many l)

/-- JS property read `this.parsedSegments[name]`. -/
def lookupSeg (m : List (String × SegmentData)) (name : String) : Option SegmentData :=
  match m with
  | [] => none
  | (k, sd) :: rest => if k = name then some sd else lookupSeg rest name

/-- Resolve stored segment data to the segment used by `get`/`set`:
`Array.isArray(d) ? d[0] : d` (an empty array would give `undefined`). -/
def firstOfData : SegmentData → Option Segment
  | SegmentData.one s => some s
  | SegmentData.many l => l.head?

/-- `new HL7Message(rawHL7)`: split into lines on `/\r?\n/`, drop blank and
whitespace-only lines, parse each remaining line into a `Segment`, and build
the name index. -/
def HL7Message.mk' (rawHL7 : String) : HL7Message :=
  let lines := (splitLines rawHL7).filter (fun line => jsTrim line != "")
  let segments := lines.map Segment.mk'
  ⟨segments, parseSegmentsToObject segments⟩

/-- Segment resolution shared by `get` (lines 160–171): look the name up in
`parsedSegments` and take the first element when an array is stored. -/
def HL7Message.seg1 (m : HL7Message) (name : String) : Option Segment :=
  (lookupSeg m.parsedSegments name).bind firstOfData

/-- `HL7Message.get(path)`: resolve the path, then dispatch on which optional
indices are present (`componentIndex === undefined` — note that the parsed
index `0` is *defined* and takes the component/subcomponent branch). -/
def HL7Message.get (m : HL7Message) (path : String) : String :=
  match parsePath path with
  | none => ""
  | some pp =>
    match m.seg1 pp.segmentName with
    | none => ""
    | some segment =>
      match pp.componentIndex with
      | none => segment.getField pp.fieldIndex
      | some ci =>
        match pp.subcomponentIndex with
        | none => segment.getComponent pp.fieldIndex ci
        | some si => segment.getSubcomponent pp.fieldIndex ci si

/-- `HL7Message.getSegments()`. -/
def HL7Message.getSegments (m : HL7Message) : List Segment := m.segments

/-- `HL7Message.hasSegment(name)`: `name in this.parsedSegments`. -/
def HL7Message.hasSegment (m : HL7Message) (name : String) : Bool :=
  (lookupSeg m.parsedSegments name).isSome

/-- `HL7Message.getSegment(name)`: first match or `undefined`. -/
def HL7Message.getSegment (m : HL7Message) (name : String) : Option Segment :=
  m.seg1 name

/-- `HL7Message.getAllSegments(name)`. -/
def HL7Message.getAllSegments (m : HL7Message) (name : String) : List Segment :=
  match lookupSeg m.parsedSegments name with
  | some (SegmentData.many l) => l
  | some (SegmentData.one s) => [s]
  | none => []

/-- `HL7Message.toString()`: `this.segments.map(s => s.toString()).join('\r\n')`. -/
def HL7Message.toString (m : HL7Message) : String :=
  joinCRLF (m.segments.map Segment.toString)

/-- Net effect of the write statements of `set` on the resolved segment
object, shared by both versions of the class (`none` = TypeError thrown).

* `!componentIndex` (absent or `0`): `segment[fieldIndex] = value` overwrites
  the whole field slot.
* Otherwise `if (!segment[fieldIndex]) segment[fieldIndex] = ''` pads the slot
  with the empty string; every later `segment[fieldIndex]` read then still
  yields `null` for an empty slot, so the following component assignment
  throws a TypeError (property assignment on `null`).  The state mutated
  before the throw is unobservable here and is discarded with the exception.
* When the field is non-empty, `segment[fieldIndex]` is a *fresh* `HL7Field`;
  component and subcomponent assignments mutate that detached view and are
  discarded, leaving the segment unchanged — except that a subcomponent write
  whose component is missing reads `null[subcomponentIndex]` and throws.
  (The second class version's extra
  `if (!segment[fieldIndex][componentIndex]) ...` line throws and discards in
  exactly the same cases.) -/
def mutateSegment (segment : Segment) (pp : PathParts) (value : String) : Option Segment :=
  match pp.componentIndex with
  | none => some (segment.idxSet pp.fieldIndex value)
  | some ci =>
    if ci = 0 then some (segment.idxSet pp.fieldIndex value)
    else
      let s1 := if segment.idxGet pp.fieldIndex = none
                then segment.idxSet pp.fieldIndex "" else segment
      if s1.idxGet pp.fieldIndex = none then none
      else
        match pp.subcomponentIndex with
        | none => some s1
        | some si =>
          if si = 0 then some s1
          else
            match (HL7Field.mk' (s1.getField pp.fieldIndex)).idxGet ci with
            | none => none
            | some _ => some s1

/-- Replace the first segment carrying `name` (the object aliased by the name
index) in the ordered list; a segment created by version 1 of `set` is absent
from the list and nothing is replaced. -/
def replaceFirstNamed : List Segment → String → Segment → List Segment
  | [], _, _ => []
  | s :: rest, name, s' =>
    if s.name = name then s' :: rest else s :: replaceFirstNamed rest name s'

/-- Replace the segment object at the head of `name`'s entry in the
`parsedSegments` map. -/
def replaceGroupHead : List (String × SegmentData) → String → Segment → List (String × SegmentData)
  | [], _, _ => []
  | (k, sd) :: rest, name, s' =>
    if k = name then
      (k, match sd with
          | SegmentData.one _ => SegmentData.one s'
          | SegmentData.many [] => SegmentData.many []
          | SegmentData.many (_ :: t) => SegmentData.many (s' :: t)) :: rest
    else (k, sd) :: replaceGroupHead rest name s'

/-- `HL7Message.set(path, value)`, first version of the class: a segment
created on demand is stored in `parsedSegments` only — it is NOT pushed onto
`this.segments`.  `none` models a thrown TypeError. -/
def HL7Message.set_v1 (m : HL7Message) (path value : String) : Option HL7Message :=
  match parsePath path with
  | none => some m
  | some pp =>
    match lookupSeg m.parsedSegments pp.segmentName with
    | some sd =>
      match firstOfData sd with
      | none => none
      | some s =>
        match mutateSegment s pp value with
        | none => none
        | some s' =>
          some ⟨replaceFirstNamed m.segments pp.segmentName s',
                replaceGroupHead m.parsedSegments pp.segmentName s'⟩
    | none =>
      let created := Segment.mk' (pp.segmentName ++ "|")
      match mutateSegment created pp value with
      | none => none
      | some s' =>
        some ⟨m.segments, m.parsedSegments ++ [(pp.segmentName, SegmentData.one s')]⟩

/-- `HL7Message.set(path, value)`, second version of the class: identical to
`set_v1` except that a segment created on demand is ALSO pushed onto
`this.segments`. -/
def HL7Message.set_v2 (m : HL7Message) (path value : String) : Option HL7Message :=
  match parsePath path with
  | none => some m
  | some pp =>
    match lookupSeg m.parsedSegments pp.segmentName with
    | some sd =>
      match firstOfData sd with
      | none => none
      | some s =>
        match mutateSegment s pp value with
        | none => none
        | some s' =>
          some ⟨replaceFirstNamed m.segments pp.segmentName s',
                replaceGroupHead m.parsedSegments pp.segmentName s'⟩
    | none =>
      let created := Segment.mk' (pp.segmentName ++ "|")
      match mutateSegment created pp value with
      | none => none
      | some s' =>
        some ⟨m.segments ++ [s'],
              m.parsedSegments ++ [(pp.segmentName, SegmentData.one s')]⟩

/-! ## `CustomValidator` (src/core/CustomValidator.ts) -/

/-- The `dataType` variants of `ValidationRule` (src/core/types.ts). -/
inductive HL7DataType where
  | ST | NM | DT | TS
deriving DecidableEq

/-- `interface ValidationRule`; absent optional properties are `none`
(`required` absent is falsy, i.e. `false`).  The `regex` property is declared
in the source but never read by `validate`. -/
structure ValidationRule where
  path : String
  required : Bool := false
  dataType : Option HL7DataType := none
  maxLength : Option Nat := none
  allowedValues : Option (List String) := none
  regex : Option String := none
deriving DecidableEq

/-- `interface ValidationError`. -/
structure ValidationError where
  path : String
  message : String
deriving DecidableEq

/-- `interface ValidationResult`. -/
structure ValidationResult where
  isValid : Bool
  errors : List ValidationError
deriving DecidableEq

/-- Errors contributed by one rule in the `validate` loop.  `dtBad v` stands
for the host predicate `isNaN(Date.parse(v))` and `nmBad v` for
`isNaN(Number(v))`; the claims do not depend on their values.  A required
field that is missing or whitespace-only contributes exactly its one error
and `continue`s past every other check of the same rule; note that JS
`rule.maxLength && ...` skips the length check when `maxLength` is `0`. -/
def ruleErrors (m : HL7Message) (dtBad nmBad : String → Bool) (rule : ValidationRule) :
    List ValidationError :=
  let value := m.get rule.path
  if rule.required && (value == "" || jsTrim value == "") then
    [⟨rule.path, "The required field is missing."⟩]
  else if value == "" then []
  else
    (match rule.maxLength with
     | some maxLen =>
       if maxLen != 0 && value.length > maxLen then
         [⟨rule.path, "The value exceeds the maximum length of " ++ Nat.repr maxLen ++ "."⟩]
       else []
     | none => []) ++
    (match rule.allowedValues with
     | some allowed =>
       if !(allowed.contains value) then
         [⟨rule.path, "The value \"" ++ value ++ "\" is not in the list of allowed values."⟩]
       else []
     | none => []) ++
    (if rule.dataType = some HL7DataType.DT && dtBad value then
       [⟨rule.path, "The value \"" ++ value ++ "\" is not a valid date (YYYYMMDD)."⟩]
     else []) ++
    (if rule.dataType = some HL7DataType.NM && nmBad value then
       [⟨rule.path, "The value \"" ++ value ++ "\" is not a valid number."⟩]
     else [])

/-- The `for (const rule of this.rules)` loop of `validate`, accumulating
errors in rule order. -/
def validateLoop (m : HL7Message) (dtBad nmBad : String → Bool) :
    List ValidationRule → List ValidationError
  | [] => []
  | rule :: rest => ruleErrors m dtBad nmBad rule ++ validateLoop m dtBad nmBad rest

/-- `CustomValidator.validate(message)` for a validator holding `rules`:
`isValid` is `errors.length === 0`. -/
def validate (m : HL7Message) (dtBad nmBad : String → Bool)
    (rules : List ValidationRule) : ValidationResult :=
  let errors := validateLoop m dtBad nmBad rules
  ⟨errors.isEmpty, errors⟩

/-! ## Helper lemmas -/

theorem consHead_join (sep : List Char) (c : Char) (ll : List (List Char)) :
    joinWithSep sep (consHead c ll) = c :: joinWithSep sep ll := by
  match ll with
  | [] => rfl
  | [x] => rfl
  | x :: y :: xs => rfl

theorem splitOnChar_ne_nil (sep : Char) (cs : List Char) : splitOnChar sep cs ≠ [] := by
  cases cs with
  | nil => simp [splitOnChar]
  | cons c rest =>
    simp only [splitOnChar]
    split
    · simp
    · cases h : splitOnChar sep rest <;> simp [consHead]

/-- `arr.join(sep)` is a left inverse of `str.split(sep)` (char level). -/
theorem join_splitOnChar (sep : Char) (cs : List Char) :
    joinWithSep [sep] (splitOnChar sep cs) = cs := by
  induction cs with
  | nil => rfl
  | cons c rest ih =>
    by_cases h : c = sep
    · subst h
      simp only [splitOnChar, if_pos rfl]
      rcases hs : splitOnChar c rest with _ | ⟨x, xs⟩
      · exact absurd hs (splitOnChar_ne_nil c rest)
      · rw [hs] at ih
        simp [joinWithSep, ih]
    · simp only [splitOnChar, if_neg h]
      rw [consHead_join, ih]

theorem data_mk (cs : List Char) : (String.mk cs).data = cs := rfl

theorem mk_data (s : String) : String.mk s.data = s := rfl

/-- `join(sep)` is a left inverse of `split(sep)` on `String`s. -/
theorem jsJoin_jsSplit (sep : Char) (s : String) : jsJoin sep (jsSplit sep s) = s := by
  unfold jsJoin jsSplit
  rw [List.map_map]
  have hcomp : ∀ ll : List (List Char), (ll.map (String.data ∘ String.mk)) = ll := by
    intro ll
    simp [Function.comp_def]
  rw [hcomp, join_splitOnChar]

/-- Parsing a line into a `Segment` and serialising it back is the identity. -/
theorem Segment.toString_mk' (line : String) : (Segment.mk' line).toString = line := by
  simp only [Segment.mk', Segment.toString]
  exact jsJoin_jsSplit '|' line

theorem splitLinesChars_lf (rest : List Char) :
    splitLinesChars ('\n' :: rest) = [] :: splitLinesChars rest := rfl

theorem splitLinesChars_crlf (rest : List Char) :
    splitLinesChars ('\r' :: '\n' :: rest) = [] :: splitLinesChars rest := rfl

theorem splitLinesChars_cons (c : Char) (rest : List Char) (h1 : c ≠ '\n') (h2 : c ≠ '\r') :
    splitLinesChars (c :: rest) = consHead c (splitLinesChars rest) := by
  rw [splitLinesChars.eq_def]
  split
  · rename_i heq
    exact absurd heq (by simp)
  · rename_i heq
    injection heq with hc _
    exact absurd hc h1
  · rename_i heq
    injection heq with hc _
    exact absurd hc h2
  · rename_i heq
    injection heq with hc hrest
    rw [hc, hrest]

theorem splitLinesChars_noSep (l : List Char) (hl : ∀ c ∈ l, c ≠ '\n' ∧ c ≠ '\r') :
    splitLinesChars l = [l] := by
  induction l with
  | nil => rfl
  | cons c l' ih =>
    have hc := hl c (by simp)
    rw [splitLinesChars_cons c l' hc.1 hc.2, ih (fun x hx => hl x (by simp [hx]))]
    rfl

theorem splitLinesChars_append_lf (l rest : List Char)
    (hl : ∀ c ∈ l, c ≠ '\n' ∧ c ≠ '\r') :
    splitLinesChars (l ++ '\n' :: rest) = l :: splitLinesChars rest := by
  induction l with
  | nil => simpa using splitLinesChars_lf rest
  | cons c l' ih =>
    have hc := hl c (by simp)
    rw [List.cons_append, splitLinesChars_cons c _ hc.1 hc.2,
        ih (fun x hx => hl x (by simp [hx]))]
    rfl

theorem splitLinesChars_append_crlf (l rest : List Char)
    (hl : ∀ c ∈ l, c ≠ '\n' ∧ c ≠ '\r') :
    splitLinesChars (l ++ '\r' :: '\n' :: rest) = l :: splitLinesChars rest := by
  induction l with
  | nil => simpa using splitLinesChars_crlf rest
  | cons c l' ih =>
    have hc := hl c (by simp)
    rw [List.cons_append, splitLinesChars_cons c _ hc.1 hc.2,
        ih (fun x hx => hl x (by simp [hx]))]
    rfl

/-- A segment line is free of both separator characters. -/
def noCRLF (s : String) : Prop := ∀ c ∈ s.data, c ≠ '\n' ∧ c ≠ '\r'

instance (s : String) : Decidable (noCRLF s) :=
  inferInstanceAs (Decidable (∀ c ∈ s.data, c ≠ '\n' ∧ c ≠ '\r'))

/-- `JoinedBy ls t`: the text `t` consists of the chunks `ls` joined, in order,
by separators each of which is LF or CRLF (possibly mixed). -/
inductive JoinedBy : List String → String → Prop
  | single (l : String) : JoinedBy [l] l
  | cons (l sep : String) {ls : List String} {t : String} :
      sep = "\n" ∨ sep = "\r\n" → JoinedBy ls t → JoinedBy (l :: ls) (l ++ sep ++ t)

/-- Splitting on `/\r?\n/` recovers the chunks of an LF/CRLF-joined text whose
chunks contain no CR and no LF. -/
theorem splitLines_joinedBy {ls : List String} {t : String}
    (h : JoinedBy ls t) (hl : ∀ l ∈ ls, noCRLF l) :
    splitLines t = ls := by
  induction h with
  | single l =>
    unfold splitLines
    rw [splitLinesChars_noSep l.data (hl l (by simp))]
    simp
  | @cons l sep ls' t' hsep hj ih =>
    unfold splitLines
    have hdata : (l ++ sep ++ t').data = l.data ++ (sep.data ++ t'.data) := by
      rw [String.data_append, String.data_append, List.append_assoc]
    rcases hsep with rfl | rfl
    · rw [hdata, show (("\n" : String)).data ++ t'.data = '\n' :: t'.data from rfl,
          splitLinesChars_append_lf _ _ (hl l (by simp))]
      simp only [List.map_cons, mk_data, List.cons.injEq, true_and]
      exact ih (fun x hx => hl x (by simp [hx]))
    · rw [hdata, show (("\r\n" : String)).data ++ t'.data = '\r' :: '\n' :: t'.data from rfl,
          splitLinesChars_append_crlf _ _ (hl l (by simp))]
      simp only [List.map_cons, mk_data, List.cons.injEq, true_and]
      exact ih (fun x hx => hl x (by simp [hx]))

theorem map_toString_mk' (ls : List String) :
    ls.map (fun l => (Segment.mk' l).toString) = ls := by
  induction ls with
  | nil => rfl
  | cons l rest ih => rw [List.map_cons, Segment.toString_mk', ih]

theorem getField_oob (s : Segment) (i : Nat) (h : s.fields.length ≤ i) :
    s.getField i = "" :=
  List.getD_eq_default _ _ h

theorem getComponent_field_empty (s : Segment) (fi ci : Nat)
    (h : s.getField fi = "") : s.getComponent fi ci = "" := by
  simp [Segment.getComponent, h]

theorem getComponent_oob (s : Segment) (fi ci : Nat)
    (h : ci = 0 ∨ (jsSplit '^' (s.getField fi)).length < ci) :
    s.getComponent fi ci = "" := by
  unfold Segment.getComponent
  rcases h with rfl | h
  · simp
  · by_cases hf : s.getField fi = ""
    · simp [hf]
    · have hci : ci ≠ 0 := by omega
      simp [hf, hci]
      rw [List.getElem?_eq_none (by omega)]
      rfl

theorem getSubcomponent_component_empty (s : Segment) (fi ci si : Nat)
    (h : s.getComponent fi ci = "") : s.getSubcomponent fi ci si = "" := by
  simp [Segment.getSubcomponent, h]

theorem getSubcomponent_oob (s : Segment) (fi ci si : Nat)
    (h : si = 0 ∨ (jsSplit '&' (s.getComponent fi ci)).length < si) :
    s.getSubcomponent fi ci si = "" := by
  unfold Segment.getSubcomponent
  by_cases hc : s.getComponent fi ci = ""
  · simp [hc]
  · rcases h with rfl | h
    · simp [hc]
    · have hsi : si ≠ 0 := by omega
      simp [hc, hsi]
      rw [List.getElem?_eq_none (by omega)]
      rfl

theorem validateLoop_append (m : HL7Message) (dtBad nmBad : String → Bool)
    (rules1 rules2 : List ValidationRule) :
    validateLoop m dtBad nmBad (rules1 ++ rules2) =
      validateLoop m dtBad nmBad rules1 ++ validateLoop m dtBad nmBad rules2 := by
  induction rules1 with
  | nil => rfl
  | cons r rest ih => simp [validateLoop, ih]

theorem ruleErrors_required (m : HL7Message) (dtBad nmBad : String → Bool)
    (r : ValidationRule) (hreq : r.required = true)
    (hval : jsTrim (m.get r.path) = "") :
    ruleErrors m dtBad nmBad r = [⟨r.path, "The required field is missing."⟩] := by
  simp [ruleErrors, hreq, hval]

/-! ## Claims -/

/-- Claim C1: on a message without an `NK1` segment, `set("NK1-2", "X")` under
the first version of the class registers the created segment in the name index
only — `hasSegment` is true and `get` reads the value back, but `toString()`
still prints only the old segments and `getSegments()` still has length 1 —
while the second version appends the new segment to the ordered list so that
`toString()` contains its serialised line `NK1||X` and `getSegments()`
includes it, as the claim states. -/
theorem c1_created_segment_in_ordered_list :
    ((HL7Message.mk' ("MSH|1")).set_v1 ("NK1-2") ("X")).map HL7Message.toString
        = some ("MSH|1") ∧
    ((HL7Message.mk' ("MSH|1")).set_v1 ("NK1-2") ("X")).map (fun m => m.hasSegment ("NK1"))
        = some true ∧
    ((HL7Message.mk' ("MSH|1")).set_v1 ("NK1-2") ("X")).map (fun m => m.get ("NK1-2"))
        = some ("X") ∧
    ((HL7Message.mk' ("MSH|1")).set_v1 ("NK1-2") ("X")).map (fun m => m.getSegments.length)
        = some 1 ∧
    ((HL7Message.mk' ("MSH|1")).set_v2 ("NK1-2") ("X")).map HL7Message.toString
        = some ("MSH|1\r\nNK1||X") ∧
    ((HL7Message.mk' ("MSH|1")).set_v2 ("NK1-2") ("X")).map
        (fun m => m.getSegments.map Segment.toString)
        = some [("MSH|1"), ("NK1||X")] := by
  refine ⟨?_, ?_, ?_, ?_, ?_, ?_⟩ <;> decide

/-- Claim C2: the `Segment` proxy `get` clones on read — it builds a fresh
`HL7Field` from the raw slot string; a positional write through that view
rejoins the component list into the view's own `value` only (`SMITH^JOHN`),
and the net effect of the message-level component-write path
(`segment[fieldIndex][componentIndex] = value`) on the owning segment is nil:
the segment's `getField` still returns the old string, refuting the claimed
upward propagation and shared underlying list. -/
theorem c2_field_view_write_not_propagated :
    (Segment.mk' ("PID|1|DOE^JOHN")).idxGet 2
        = some (HL7Field.mk' ((Segment.mk' ("PID|1|DOE^JOHN")).getField 2)) ∧
    ((HL7Field.mk' ("DOE^JOHN")).idxSet 1 ("SMITH")).value = ("SMITH^JOHN") ∧
    mutateSegment (Segment.mk' ("PID|1|DOE^JOHN")) ⟨("PID"), 2, some 1, none⟩ ("SMITH")
        = some (Segment.mk' ("PID|1|DOE^JOHN")) ∧
    (Segment.mk' ("PID|1|DOE^JOHN")).getField 2 = ("DOE^JOHN") := by
  refine ⟨?_, ?_, ?_, ?_⟩ <;> decide

/-- Claim C3: `set` with a component index on an absent (or empty) field
throws a TypeError in both versions of the class — `segment[fieldIndex]`
yields `null` for the empty slot just written, and the component assignment
dereferences it; likewise a subcomponent write whose component is missing.
`none` is the embedded image of the exception. -/
theorem c3_set_throws_on_absent_field :
    (HL7Message.mk' ("PID|1")).set_v1 ("PID-2.1") ("X") = none ∧
    (HL7Message.mk' ("PID|1")).set_v2 ("PID-2.1") ("X") = none ∧
    (HL7Message.mk' ("PID|1|DOE^JOHN")).set_v1 ("PID-2.3.1") ("X") = none ∧
    (HL7Message.mk' ("PID|1|DOE^JOHN")).set_v2 ("PID-2.3.1") ("X") = none := by
  refine ⟨?_, ?_, ?_, ?_⟩ <;> decide

/-- Claim C4 (counterexample): on the claimed input, whose two segments are
separated by a lone CR, the constructor does NOT split — `split(/\r?\n/)`
needs an LF — so the whole text parses as a single MSH segment:
`get("PID-5.1")` is `""` (not `"DOE"`), `hasSegment("PID")` is false, and
even `get("MSH-9")` is `"1"` (not `"ADT^A01"`), because fields are addressed
by raw split position with no MSH-1 offset. -/
theorem c4_cr_scenario_counterexample :
    (HL7Message.mk' ("MSH|^~\\&|A|B|C|D|20240101||ADT^A01|1|P|2.4\rPID|1||X||DOE^JOHN")).get
        ("PID-5.1") = "" ∧
    (HL7Message.mk' ("MSH|^~\\&|A|B|C|D|20240101||ADT^A01|1|P|2.4\rPID|1||X||DOE^JOHN")).get
        ("PID-5.2") = "" ∧
    (HL7Message.mk' ("MSH|^~\\&|A|B|C|D|20240101||ADT^A01|1|P|2.4\rPID|1||X||DOE^JOHN")).hasSegment
        ("PID") = false ∧
    (HL7Message.mk' ("MSH|^~\\&|A|B|C|D|20240101||ADT^A01|1|P|2.4\rPID|1||X||DOE^JOHN")).get
        ("MSH-9") = ("1") := by
  refine ⟨?_, ?_, ?_, ?_⟩ <;> decide

/-- Claim C4 (amended): segment boundaries are LF or CRLF only.  With the same
content separated by CRLF (or LF), the scenario gives `get("PID-5.1") = "DOE"`,
`get("PID-5.2") = "JOHN"`, `hasSegment("OBX") = false`, and the serialized
message type `ADT^A01` is read by `get("MSH-8")` while `get("MSH-9")` is `"1"`
(raw positional addressing, no MSH field offset). -/
theorem c4_amended_scenario :
    (HL7Message.mk' ("MSH|^~\\&|A|B|C|D|20240101||ADT^A01|1|P|2.4\r\nPID|1||X||DOE^JOHN")).get
        ("PID-5.1") = ("DOE") ∧
    (HL7Message.mk' ("MSH|^~\\&|A|B|C|D|20240101||ADT^A01|1|P|2.4\r\nPID|1||X||DOE^JOHN")).get
        ("PID-5.2") = ("JOHN") ∧
    (HL7Message.mk' ("MSH|^~\\&|A|B|C|D|20240101||ADT^A01|1|P|2.4\r\nPID|1||X||DOE^JOHN")).get
        ("MSH-8") = ("ADT^A01") ∧
    (HL7Message.mk' ("MSH|^~\\&|A|B|C|D|20240101||ADT^A01|1|P|2.4\r\nPID|1||X||DOE^JOHN")).get
        ("MSH-9") = ("1") ∧
    (HL7Message.mk' ("MSH|^~\\&|A|B|C|D|20240101||ADT^A01|1|P|2.4\r\nPID|1||X||DOE^JOHN")).hasSegment
        ("OBX") = false ∧
    (HL7Message.mk' ("MSH|^~\\&|A|B|C|D|20240101||ADT^A01|1|P|2.4\nPID|1||X||DOE^JOHN")).get
        ("PID-5.1") = ("DOE") := by
  refine ⟨?_, ?_, ?_, ?_, ?_, ?_⟩ <;> decide

/-- Claim C5: write-then-read fails for component paths.  On a message whose
`PID-2` is `DOE^JOHN`, `set("PID-2.1", "SMITH")` succeeds but the write lands
in a detached field view, so `get("PID-2.1")` still returns `"DOE"`, not
`"SMITH"`, under both versions of the class. -/
theorem c5_write_then_read_fails_for_components :
    ((HL7Message.mk' ("PID|1|DOE^JOHN")).set_v1 ("PID-2.1") ("SMITH")).map
        (fun m => m.get ("PID-2.1")) = some ("DOE") ∧
    ((HL7Message.mk' ("PID|1|DOE^JOHN")).set_v2 ("PID-2.1") ("SMITH")).map
        (fun m => m.get ("PID-2.1")) = some ("DOE") ∧
    (("DOE") : String) ≠ ("SMITH") := by
  refine ⟨?_, ?_, ?_⟩ <;> decide

/-- Claim C6 (counterexample): for the two-line text joined by a lone CR the
round trip returns the input unchanged — the CR is NOT normalised to CRLF,
because it is not recognised as a separator at all. -/
theorem c6_cr_roundtrip_counterexample :
    (HL7Message.mk' ("MSH|1\rPID|2")).toString = ("MSH|1\rPID|2") ∧
    (HL7Message.mk' ("MSH|1\rPID|2")).toString ≠ ("MSH|1\r\nPID|2") := by
  refine ⟨?_, ?_⟩ <;> decide

/-- Claim C6 (amended): for any raw text composed of non-blank, CR/LF-free
segment lines joined by LF or CRLF separators (mixed freely), parsing and
re-serialising returns the lines in original order joined by CRLF. -/
theorem c6_roundtrip_normalizes_to_crlf (ls : List String) (t : String)
    (hl : ∀ l ∈ ls, noCRLF l ∧ jsTrim l ≠ "")
    (hj : JoinedBy ls t) :
    (HL7Message.mk' t).toString = joinCRLF ls := by
  simp only [HL7Message.mk', HL7Message.toString]
  rw [splitLines_joinedBy hj (fun l h => (hl l h).1),
      List.filter_eq_self.mpr (fun l h => by
        have h2 := (hl l h).2
        simpa [bne_iff_ne] using h2),
      List.map_map]
  simpa [Function.comp_def] using congrArg joinCRLF (map_toString_mk' ls)

/-- Witness for the amended C6 round trip at a concrete two-line input. -/
theorem c6_roundtrip_witness :
    (HL7Message.mk' ("MSH|1\nPID|2")).toString = joinCRLF [("MSH|1"), ("PID|2")] := by
  have happ : (("MSH|1" ++ "\n" ++ "PID|2") : String) = ("MSH|1\nPID|2") := rfl
  have hj : JoinedBy [("MSH|1"), ("PID|2")] ("MSH|1\nPID|2") :=
    happ ▸ JoinedBy.cons ("MSH|1") ("\n") (Or.inl rfl) (JoinedBy.single ("PID|2"))
  exact c6_roundtrip_normalizes_to_crlf _ _ (by decide) hj

/-- Claim C7 (counterexample): for the segment parsed from `PID|1|`, the
positional indexed read of field 2 returns the absent marker (`null`), not a
present-but-empty view: the proxy `get` trap checks JS truthiness
(`if (!fieldValue) return null`), which conflates the empty string with a
missing slot. -/
theorem c7_empty_field_indexed_read_absent :
    (Segment.mk' ("PID|1|")).idxGet 2 = none := by decide

/-- Claim C7 (amended): indexed reads of field 2 AND field 99 of `PID|1|` both
return the absent marker (an empty field is treated as absent by indexed
read); the present-but-empty slot is observable only through
`getField`/`getFields`, where field 2 is the empty string inside the 3-element
field array while index 99 lies beyond it. -/
theorem c7_amended_empty_vs_absent :
    (Segment.mk' ("PID|1|")).idxGet 2 = none ∧
    (Segment.mk' ("PID|1|")).idxGet 99 = none ∧
    (Segment.mk' ("PID|1|")).getField 2 = "" ∧
    (Segment.mk' ("PID|1|")).getFields = [("PID"), ("1"), ("")] := by
  refine ⟨?_, ?_, ?_, ?_⟩ <;> decide

/-- Claim C8: a path that fails the grammar makes `get` return the empty
string and both versions of `set` return the document unchanged, with no
exception; and a well-formed path whose segment is not found, or whose field,
component, or subcomponent index is out of range, makes `get` return the
empty string. -/
theorem c8_error_contract (m : HL7Message) (path value : String) :
    (parsePath path = none →
        m.get path = "" ∧ m.set_v1 path value = some m ∧ m.set_v2 path value = some m) ∧
    (∀ pp, parsePath path = some pp →
      (lookupSeg m.parsedSegments pp.segmentName = none → m.get path = "") ∧
      (∀ s, m.seg1 pp.segmentName = some s →
        (s.fields.length ≤ pp.fieldIndex → m.get path = "") ∧
        (∀ ci, pp.componentIndex = some ci →
            ci = 0 ∨ (jsSplit '^' (s.getField pp.fieldIndex)).length < ci →
            m.get path = "") ∧
        (∀ ci si, pp.componentIndex = some ci → pp.subcomponentIndex = some si →
            si = 0 ∨ (jsSplit '&' (s.getComponent pp.fieldIndex ci)).length < si →
            m.get path = ""))) := by
  constructor
  · intro h
    refine ⟨?_, ?_, ?_⟩ <;>
      simp [HL7Message.get, HL7Message.set_v1, HL7Message.set_v2, h]
  · intro pp hp
    constructor
    · intro hlk
      simp [HL7Message.get, hp, HL7Message.seg1, hlk]
    · intro s hs
      refine ⟨?_, ?_, ?_⟩
      · intro hlen
        have hf : s.getField pp.fieldIndex = "" := getField_oob s _ hlen
        cases hci : pp.componentIndex with
        | none => simp [HL7Message.get, hp, hs, hci, hf]
        | some ci =>
          cases hsi : pp.subcomponentIndex with
          | none =>
            simp [HL7Message.get, hp, hs, hci, hsi, getComponent_field_empty s _ ci hf]
          | some si =>
            simp [HL7Message.get, hp, hs, hci, hsi,
                  getSubcomponent_component_empty s _ ci si (getComponent_field_empty s _ ci hf)]
      · intro ci hci hoob
        cases hsi : pp.subcomponentIndex with
        | none => simp [HL7Message.get, hp, hs, hci, hsi, getComponent_oob s _ ci hoob]
        | some si =>
          simp [HL7Message.get, hp, hs, hci, hsi,
                getSubcomponent_component_empty s _ ci si (getComponent_oob s _ ci hoob)]
      · intro ci si hci hsi hoob
        simp [HL7Message.get, hp, hs, hci, hsi, getSubcomponent_oob s _ ci si hoob]

/-- Witness for C8 at concrete malformed, segment-missing, and out-of-range
inputs. -/
theorem c8_error_contract_witness :
    ((HL7Message.mk' ("PID|1|DOE^JOHN")).get ("INVALID") = "" ∧
      (HL7Message.mk' ("PID|1|DOE^JOHN")).set_v1 ("INVALID") ("v")
          = some (HL7Message.mk' ("PID|1|DOE^JOHN")) ∧
      (HL7Message.mk' ("PID|1|DOE^JOHN")).set_v2 ("INVALID") ("v")
          = some (HL7Message.mk' ("PID|1|DOE^JOHN"))) ∧
    (HL7Message.mk' ("PID|1|DOE^JOHN")).get ("ZZZ-1") = "" ∧
    (HL7Message.mk' ("PID|1|DOE^JOHN")).get ("PID-9") = "" ∧
    (HL7Message.mk' ("PID|1|DOE^JOHN")).get ("PID-2.5") = "" ∧
    (HL7Message.mk' ("PID|1|DOE^JOHN")).get ("PID-2.1.3") = "" := by
  refine ⟨(c8_error_contract _ ("INVALID") ("v")).1 (by decide), ?_, ?_, ?_, ?_⟩
  · exact ((c8_error_contract (HL7Message.mk' ("PID|1|DOE^JOHN")) ("ZZZ-1") ("v")).2
      ⟨("ZZZ"), 1, none, none⟩ (by decide)).1 (by decide)
  · exact (((c8_error_contract (HL7Message.mk' ("PID|1|DOE^JOHN")) ("PID-9") ("v")).2
      ⟨("PID"), 9, none, none⟩ (by decide)).2 (Segment.mk' ("PID|1|DOE^JOHN"))
        (by decide)).1 (by decide)
  · exact ((((c8_error_contract (HL7Message.mk' ("PID|1|DOE^JOHN")) ("PID-2.5") ("v")).2
      ⟨("PID"), 2, some 5, none⟩ (by decide)).2 (Segment.mk' ("PID|1|DOE^JOHN"))
        (by decide)).2.1 5 rfl (by decide))
  · exact ((((c8_error_contract (HL7Message.mk' ("PID|1|DOE^JOHN")) ("PID-2.1.3") ("v")).2
      ⟨("PID"), 2, some 1, some 3⟩ (by decide)).2 (Segment.mk' ("PID|1|DOE^JOHN"))
        (by decide)).2.2 1 3 rfl rfl (by decide))

/-- Claim C9: a rule with `required: true` whose path resolves to a missing or
whitespace-only value contributes exactly the one "required field is missing"
error whatever its other properties are, the surrounding rules still
contribute their own errors, and `isValid` holds iff the error list is
empty. -/
theorem c9_required_short_circuit (m : HL7Message) (dtBad nmBad : String → Bool)
    (pre post : List ValidationRule) (r : ValidationRule)
    (hreq : r.required = true) (hval : jsTrim (m.get r.path) = "") :
    ruleErrors m dtBad nmBad r = [⟨r.path, "The required field is missing."⟩] ∧
    (validate m dtBad nmBad (pre ++ r :: post)).errors =
      validateLoop m dtBad nmBad pre ++
        ⟨r.path, "The required field is missing."⟩ :: validateLoop m dtBad nmBad post ∧
    ((validate m dtBad nmBad (pre ++ r :: post)).isValid = true ↔
      (validate m dtBad nmBad (pre ++ r :: post)).errors = []) := by
  have h1 := ruleErrors_required m dtBad nmBad r hreq hval
  refine ⟨h1, ?_, ?_⟩
  · simp [validate, validateLoop_append, validateLoop, h1]
  · simp [validate, List.isEmpty_iff]

/-- Witness for C9: the required rule on missing `PID-5` also carries
`maxLength`, `allowedValues`, and `dataType` (with an always-failing date
oracle), yet contributes exactly one error while the rules around it are
still evaluated. -/
theorem c9_required_short_circuit_witness :
    ruleErrors (HL7Message.mk' ("MSH|A|B")) (fun _ => true) (fun _ => true)
        ⟨("PID-5"), true, some HL7DataType.DT, some 3, some [("A")], none⟩
        = [⟨("PID-5"), ("The required field is missing.")⟩] ∧
    (validate (HL7Message.mk' ("MSH|A|B")) (fun _ => true) (fun _ => true)
        ([⟨("MSH-2"), false, none, none, none, none⟩] ++
          ⟨("PID-5"), true, some HL7DataType.DT, some 3, some [("A")], none⟩ ::
            [⟨("ZZZ-1"), true, none, none, none, none⟩])).errors =
      validateLoop (HL7Message.mk' ("MSH|A|B")) (fun _ => true) (fun _ => true)
          [⟨("MSH-2"), false, none, none, none, none⟩] ++
        ⟨("PID-5"), ("The required field is missing.")⟩ ::
          validateLoop (HL7Message.mk' ("MSH|A|B")) (fun _ => true) (fun _ => true)
            [⟨("ZZZ-1"), true, none, none, none, none⟩] ∧
    ((validate (HL7Message.mk' ("MSH|A|B")) (fun _ => true) (fun _ => true)
        ([⟨("MSH-2"), false, none, none, none, none⟩] ++
          ⟨("PID-5"), true, some HL7DataType.DT, some 3, some [("A")], none⟩ ::
            [⟨("ZZZ-1"), true, none, none, none, none⟩])).isValid = true ↔
      (validate (HL7Message.mk' ("MSH|A|B")) (fun _ => true) (fun _ => true)
        ([⟨("MSH-2"), false, none, none, none, none⟩] ++
          ⟨("PID-5"), true, some HL7DataType.DT, some 3, some [("A")], none⟩ ::
            [⟨("ZZZ-1"), true, none, none, none, none⟩])).errors = []) :=
  c9_required_short_circuit (HL7Message.mk' ("MSH|A|B")) (fun _ => true) (fun _ => true)
    [⟨("MSH-2"), false, none, none, none, none⟩]
    [⟨("ZZZ-1"), true, none, none, none, none⟩]
    ⟨("PID-5"), true, some HL7DataType.DT, some 3, some [("A")], none⟩
    rfl (by decide)

/-- Claim C10: the path grammar accepts `0` as a component index
(`parsePath "PID-5.0"` succeeds with component index `0`); `get` of such a
path returns the empty string (the 1-to-0-based conversion reads position
`-1`), and `set` of such a path takes the field-only branch — the falsy check
`!componentIndex` treats `0` like an absent index — overwriting the entire
field with the value. -/
theorem c10_component_index_zero (m : HL7Message) (path value : String) (pp : PathParts)
    (hp : parsePath path = some pp) (hc : pp.componentIndex = some 0) :
    parsePath ("PID-5.0") = some ⟨("PID"), 5, some 0, none⟩ ∧
    m.get path = "" ∧
    (∀ s : Segment, mutateSegment s pp value = some (s.idxSet pp.fieldIndex value)) ∧
    (∀ s : Segment, (s.idxSet pp.fieldIndex value).getField pp.fieldIndex = value) := by
  refine ⟨by decide, ?_, ?_, ?_⟩
  · cases hseg : m.seg1 pp.segmentName with
    | none => simp [HL7Message.get, hp, hseg]
    | some s =>
      cases hsi : pp.subcomponentIndex with
      | none =>
        simp [HL7Message.get, hp, hseg, hc, hsi, getComponent_oob s _ 0 (Or.inl rfl)]
      | some si =>
        simp [HL7Message.get, hp, hseg, hc, hsi,
              getSubcomponent_component_empty s _ 0 si (getComponent_oob s _ 0 (Or.inl rfl))]
  · intro s
    simp [mutateSegment, hc]
  · intro s
    have hlen : pp.fieldIndex < (padTo s.fields (pp.fieldIndex + 1)).length := by
      simp [padTo]
      omega
    simp [Segment.idxSet, Segment.getField, List.getD_eq_getElem?_getD]
    rw [List.getElem?_set_self hlen]
    rfl

/-- Witness for C10 at the concrete path `PID-2.0` on a message whose `PID-2`
is present and non-empty. -/
theorem c10_component_index_zero_witness :
    parsePath ("PID-5.0") = some ⟨("PID"), 5, some 0, none⟩ ∧
    (HL7Message.mk' ("PID|1|DOE^JOHN")).get ("PID-2.0") = "" ∧
    mutateSegment (Segment.mk' ("PID|1|DOE^JOHN")) ⟨("PID"), 2, some 0, none⟩ ("V")
        = some ((Segment.mk' ("PID|1|DOE^JOHN")).idxSet 2 ("V")) ∧
    ((Segment.mk' ("PID|1|DOE^JOHN")).idxSet 2 ("V")).getField 2 = ("V") := by
  have h := c10_component_index_zero (HL7Message.mk' ("PID|1|DOE^JOHN")) ("PID-2.0") ("V")
      ⟨("PID"), 2, some 0, none⟩ (by decide) rfl
  exact ⟨h.1, h.2.1, h.2.2.1 _, h.2.2.2 _⟩

end HL7
